import Mathlib

/-!
Shallow embedding of the link-edit moderation core of the GigglesD bot.

The embedded functions mirror, one for one:
* `containsUrls`, `hasModeratorPermissions`, `detectUrlChanges`
  from `src/utils/helpers.js`;
* `logLinkViolation` from `src/database/supabase.js`;
* the `messageUpdate` event handler from `src/events/messageUpdate.js`.

Strings are modelled as Lean `String`; nullable JS strings as `Option String`
(`none` = null/undefined, and the empty string is falsy exactly as in JS).
Timestamps are integer milliseconds; the JS float division by `1000 * 60`
is modelled as exact division in `ℚ` (for the integer inputs and the
comparison against 10 that the code performs, the double rounding never
changes the outcome, since the spacing of doubles near 10 is far below
1/60000).  External collaborator outcomes (database insert, message
deletion, channel send, scheduled deletion) are oracles in an `Env`
record, and the handler returns the decision together with the ordered
trace of attempted side effects.
-/

/-- JS regex `\s` character class (ECMAScript WhiteSpace ∪ LineTerminator),
by code point. -/
def isJsSpace (c : Char) : Bool :=
  let n := c.toNat
  n == 9 || n == 10 || n == 11 || n == 12 || n == 13 || n == 32 || n == 160 ||
  n == 5760 || (decide (8192 ≤ n) && decide (n ≤ 8202)) || n == 8232 ||
  n == 8233 || n == 8239 || n == 8287 || n == 12288 || n == 65279

/-- The class `[a-z]` under the `i` flag: ASCII letters of either case. -/
def isRegexLetter (c : Char) : Bool :=
  (decide (97 ≤ c.toNat) && decide (c.toNat ≤ 122)) ||
  (decide (65 ≤ c.toNat) && decide (c.toNat ≤ 90))

/-- Case-insensitive match of one literal ASCII letter (`i` flag): the
character equals the lower-case or the upper-case form. -/
def ciIs (c lower upper : Char) : Bool := c == lower || c == upper

/-- `[^\s]+` at the head of the input: at least one non-space character. -/
def nonspace1 : List Char → Bool
  | [] => false
  | c :: _ => !isJsSpace c

/-- Tail of alternative 1 after `http` and the optional `s`:
the literal `://` followed by `[^\s]+`. -/
def restColon : List Char → Bool
  | c1 :: c2 :: c3 :: rest => c1 == ':' && c2 == '/' && c3 == '/' && nonspace1 rest
  | _ => false

/-- Tail of alternative 1 after the literal `http`: `s?://[^\s]+`, with the
two backtracking branches of the optional `s`. -/
def restHttp (l : List Char) : Bool :=
  (match l with
   | c :: rest => ciIs c 's' 'S' && restColon rest
   | [] => false) || restColon l

/-- Alternative 1 of the URL regex, `https?:\/\/[^\s]+`, anchored at the
head of the input. -/
def alt1 : List Char → Bool
  | c1 :: c2 :: c3 :: c4 :: rest =>
    ciIs c1 'h' 'H' && ciIs c2 't' 'T' && ciIs c3 't' 'T' && ciIs c4 'p' 'P' &&
    restHttp rest
  | _ => false

/-- Alternative 2 of the URL regex, `www\.[^\s]+`, anchored at the head. -/
def alt2 : List Char → Bool
  | c1 :: c2 :: c3 :: c4 :: rest =>
    ciIs c1 'w' 'W' && ciIs c2 'w' 'W' && ciIs c3 'w' 'W' && c4 == '.' &&
    nonspace1 rest
  | _ => false

/-- After at least two letters of the top-level domain: consume further
letters and require a literal `/` (the backtracking of `[a-z]{2,}\/`). -/
def slashAfterLetters : List Char → Bool
  | [] => false
  | c :: rest => c == '/' || (isRegexLetter c && slashAfterLetters rest)

/-- `[a-z]{2,}\/` anchored at the head (the trailing `[^\s]*` of the regex
always matches, so it imposes no condition). -/
def twoLettersSlash : List Char → Bool
  | a :: b :: rest => isRegexLetter a && isRegexLetter b && slashAfterLetters rest
  | _ => false

/-- After the first character of `[^\s]+` in alternative 3: consume further
non-space characters and, at a literal `.`, optionally switch to
`[a-z]{2,}\/` (both backtracking branches). -/
def afterA : List Char → Bool
  | [] => false
  | c :: rest => (c == '.' && twoLettersSlash rest) || (!isJsSpace c && afterA rest)

/-- Alternative 3 of the URL regex, `[^\s]+\.[a-z]{2,}\/[^\s]*`, anchored at
the head of the input. -/
def alt3 : List Char → Bool
  | [] => false
  | c :: rest => !isJsSpace c && afterA rest

/-- `regex.test`: some suffix of the input starts with a match of one of the
three alternatives. -/
def testFrom : List Char → Bool
  | [] => false
  | c :: rest => alt1 (c :: rest) || alt2 (c :: rest) || alt3 (c :: rest) || testFrom rest

/-- JS falsiness of a nullable string: null/undefined or the empty string. -/
def isFalsyStr : Option String → Bool
  | none => true
  | some s => s == ""

/-- `containsUrls(content)` from `src/utils/helpers.js`: falsy content has no
URLs, otherwise the URL regex is tested against the content. -/
def containsUrls : Option String → Bool
  | none => false
  | some s => if s == "" then false else testFrom s.data

/-- Result object of `detectUrlChanges`: either `{hasChangedUrls:false}` or
`{hasChangedUrls:true, type}` with `type ∈ {added, modified}`. -/
inductive UrlChangeType
  | added
  | modified
  deriving DecidableEq, Repr

/-- Shape of the object returned by `detectUrlChanges`. -/
inductive UrlChanges
  | noChange
  | changed (t : UrlChangeType)
  deriving DecidableEq, Repr

/-- `detectUrlChanges(oldContent, newContent)` from `src/utils/helpers.js`. -/
def detectUrlChanges (oldContent newContent : Option String) : UrlChanges :=
  if isFalsyStr oldContent || isFalsyStr newContent then .noChange
  else
    let oldHasUrls := containsUrls oldContent
    let newHasUrls := containsUrls newContent
    if !oldHasUrls && newHasUrls then .changed .added
    else if oldHasUrls && newHasUrls && oldContent != newContent then .changed .modified
    else .noChange

/-- Discord permission flags queried by the code, plus representative flags
outside the moderator set. -/
inductive Perm
  | Administrator
  | ManageMessages
  | ManageChannels
  | ManageGuild
  | BanMembers
  | KickMembers
  | ModerateMembers
  | SendMessages
  | EmbedLinks
  | AttachFiles
  | AddReactions
  | ViewChannel
  | ReadMessageHistory
  | CreateInstantInvite
  deriving DecidableEq, Repr

/-- The `modPermissions` array of `hasModeratorPermissions`. -/
def modPermissions : List Perm :=
  [.ManageMessages, .ManageChannels, .ManageGuild, .BanMembers, .KickMembers,
   .ModerateMembers]

/-- Guild member as seen by the handler: a possibly absent permission set. -/
structure Member where
  permissions : Option (List Perm)
  deriving DecidableEq, Repr

/-- `hasModeratorPermissions(member)` from `src/utils/helpers.js`. -/
def hasModeratorPermissions : Option Member → Bool
  | none => false
  | some m =>
    match m.permissions with
    | none => false
    | some perms =>
      if perms.contains .Administrator then true
      else modPermissions.any (fun p => perms.contains p)

/-- Message snapshot as used by the handler (fields of `oldMessage` /
`newMessage` that the code reads). -/
structure Msg where
  authorId : String
  authorUsername : String
  authorBot : Bool
  system : Bool
  guildId : Option String
  member : Option Member
  channelId : String
  id : String
  content : Option String
  createdTimestamp : ℤ
  deriving DecidableEq, Repr

/-- Outcomes of the external collaborators during one handler run:
the current clock and whether each attempted external call succeeds. -/
structure Env where
  now : ℤ
  dbOk : Bool
  deleteOk : Bool
  warnSendOk : Bool
  cleanupOk : Bool
  fallbackOk : Bool
  deriving DecidableEq, Repr

/-- Row inserted into `link_edit_violations` by `logLinkViolation`. -/
structure ViolationRecord where
  guild_id : String
  user_id : String
  username : String
  channel_id : String
  message_id : String
  violation_type : UrlChangeType
  old_content : Option String
  new_content : Option String
  action_taken : String
  deriving DecidableEq, Repr

/-- One attempted side effect of the handler, in program order. -/
inductive Effect
  | logInfo (msg : String)
  | logWarn (msg : String)
  | logError (msg : String)
  | logSuccess (msg : String)
  | dbInsert (rec : ViolationRecord)
  | deleteMessage (messageId : String)
  | sendMessage (channelId : String) (text : String)
  | scheduleDelete (delayMs : ℕ)
  | timerDelete
  deriving DecidableEq, Repr

/-- Decision reached by one run of the handler. -/
inductive Decision
  | ignored
  | exempt
  | allowedNoLinkChange
  | allowedWithinGrace
  | violation
  deriving DecidableEq, Repr

/-- Decision together with the ordered trace of attempted side effects. -/
structure RunResult where
  decision : Decision
  effects : List Effect
  deriving DecidableEq, Repr

/-- JS `s.substring(0, n)`: the first `n` characters (fewer when shorter). -/
def jsSubstring (s : String) (n : ℕ) : String := String.mk (s.data.take n)

/-- Row built by `logLinkViolation` in `src/database/supabase.js`: contents
are truncated with `substring(0, 1000)` through optional chaining. -/
def buildViolationRecord (guildId userId username channelId messageId : String)
    (violationType : UrlChangeType) (oldContent newContent : Option String)
    (actionTaken : String) : ViolationRecord :=
  { guild_id := guildId
    user_id := userId
    username := username
    channel_id := channelId
    message_id := messageId
    violation_type := violationType
    old_content := oldContent.map (fun s => jsSubstring s 1000)
    new_content := newContent.map (fun s => jsSubstring s 1000)
    action_taken := actionTaken }

/-- `logLinkViolation` from `src/database/supabase.js`: the insert is always
attempted; an insert error is logged and swallowed (the function resolves
with `false`), success is logged with a message depending on the action. -/
def logLinkViolation (guildId userId username channelId messageId : String)
    (violationType : UrlChangeType) (oldContent newContent : Option String)
    (actionTaken : String) (dbOk : Bool) : Bool × List Effect :=
  let row := buildViolationRecord guildId userId username channelId messageId
    violationType oldContent newContent actionTaken
  if dbOk then
    let actionMessage :=
      if actionTaken == "allowed_within_grace_period" then
        "Logged link editing attempt (allowed): " ++ username
      else
        "Logged link editing violation: " ++ username
    (true, [.dbInsert row, .logInfo actionMessage])
  else
    (false, [.dbInsert row, .logError "Failed to log link violation"])

/-- Stringification of `newMessage.author` in a template literal: the user
mention `<@id>`. -/
def authorMention (m : Msg) : String := "<@" ++ m.authorId ++ ">"

/-- The grace period constant `GRACE_PERIOD_MINUTES` of the handler. -/
def GRACE_PERIOD_MINUTES : ℚ := 10

/-- `(currentTimestamp - originalTimestamp) / (1000 * 60)` computed by the
handler, as an exact rational. -/
def timeDifferenceMinutes (currentTimestamp originalTimestamp : ℤ) : ℚ :=
  ((currentTimestamp - originalTimestamp : ℤ) : ℚ) / (1000 * 60)

/-- The branch condition `timeDifferenceMinutes <= GRACE_PERIOD_MINUTES`. -/
def withinGracePeriod (currentTimestamp originalTimestamp : ℤ) : Prop :=
  timeDifferenceMinutes currentTimestamp originalTimestamp ≤ GRACE_PERIOD_MINUTES

instance (now ts : ℤ) : Decidable (withinGracePeriod now ts) :=
  decidable_of_iff (now - ts ≤ 10 * (1000 * 60)) (by
    unfold withinGracePeriod timeDifferenceMinutes GRACE_PERIOD_MINUTES
    rw [div_le_iff₀ (by norm_num : (0 : ℚ) < 1000 * 60)]
    constructor
    · intro h
      exact_mod_cast h
    · intro h
      exact_mod_cast h)

/-- The warning text sent after a successful deletion. -/
def warningMessageText (m : Msg) : String :=
  "🚫 🔗 ✏️ 5️⃣ ⏰ ‼️\n👋 " ++ authorMention m ++
  ", NO LINK EDITING AFTER 5 MINUTES!\n🛡️ For server safety, your message has been deleted.\n🎇 This notice will self-destruct in 20 seconds..."

/-- The fallback warning text sent when deletion fails (the interpolated
grace period renders as `10`). -/
def fallbackWarningText (m : Msg) : String :=
  "⚠️ " ++ authorMention m ++
  ", link editing is not allowed after 10 minutes for regular members.\n\nPlease ask a moderator if you need to share a link."

/-- Effects of the `try { delete ... } catch { ... fallback ... }` block in
the violation branch, as a function of the collaborator outcomes.  The
`try` covers the deletion, the warning send and the `setTimeout`
scheduling; the scheduled timer later attempts to delete the warning and
logs its own failure.  The `catch` logs the error and best-effort sends a
fallback warning, logging a failure of even that. -/
def enforcementEffects (env : Env) (newMessage : Msg) : List Effect :=
  let catchBranch : List Effect :=
    Effect.logError "Failed to delete message with link edit violation" ::
    Effect.sendMessage newMessage.channelId (fallbackWarningText newMessage) ::
    (if env.fallbackOk then [Effect.logInfo "Fallback warning message sent"]
     else [Effect.logError "Failed to send warning message"])
  if env.deleteOk then
    Effect.deleteMessage newMessage.id ::
    Effect.logSuccess "Message deleted due to link edit violation" ::
    Effect.sendMessage newMessage.channelId (warningMessageText newMessage) ::
    (if env.warnSendOk then
      Effect.scheduleDelete 20000 :: Effect.timerDelete ::
      (if env.cleanupOk then
        [Effect.logInfo "Warning message auto-deleted after 20 seconds"]
       else
        [Effect.logWarn "Could not delete warning message"])
     else catchBranch)
  else
    Effect.deleteMessage newMessage.id :: catchBranch

/-- The `messageUpdate` handler from `src/events/messageUpdate.js` (the
unused `client` parameter is dropped).  Guard order, branch conditions and
effect order follow the source line by line. -/
def messageUpdate (env : Env) (oldMessage newMessage : Msg) : RunResult :=
  if newMessage.authorBot || newMessage.system then ⟨.ignored, []⟩
  else
    match newMessage.guildId, newMessage.member with
    | none, _ => ⟨.ignored, []⟩
    | some _, none => ⟨.ignored, []⟩
    | some guildId, some member =>
      if hasModeratorPermissions (some member) then
        ⟨.exempt,
         [.logInfo ("Moderator " ++ newMessage.authorUsername ++ " edited message - allowed")]⟩
      else
        match detectUrlChanges oldMessage.content newMessage.content with
        | .noChange =>
          ⟨.allowedNoLinkChange, [.logInfo "Message edit without URL changes - allowed"]⟩
        | .changed changeType =>
          let checkLog := Effect.logInfo "Link editing detected - checking time restrictions"
          if withinGracePeriod env.now oldMessage.createdTimestamp then
            let db := logLinkViolation guildId newMessage.authorId
              newMessage.authorUsername newMessage.channelId newMessage.id
              changeType oldMessage.content newMessage.content
              "allowed_within_grace_period" env.dbOk
            ⟨.allowedWithinGrace,
             checkLog ::
             Effect.logInfo "Link edit attempt within 10 minute grace period - allowed but logged" ::
             db.2⟩
          else
            let db := logLinkViolation guildId newMessage.authorId
              newMessage.authorUsername newMessage.channelId newMessage.id
              changeType oldMessage.content newMessage.content
              "message_deleted" env.dbOk
            ⟨.violation,
             checkLog ::
             Effect.logWarn "Link editing rule violation - grace period exceeded" ::
             db.2 ++ enforcementEffects env newMessage⟩

/-- Rows whose insertion into the database was attempted during a run. -/
def RunResult.persists (r : RunResult) : List ViolationRecord :=
  r.effects.filterMap (fun e =>
    match e with
    | .dbInsert row => some row
    | _ => none)

/-- Number of message-deletion attempts during a run. -/
def RunResult.deleteAttempts (r : RunResult) : ℕ :=
  (r.effects.filter (fun e =>
    match e with
    | .deleteMessage _ => true
    | _ => false)).length

/-- Channel sends attempted during a run, as (channel id, text) pairs. -/
def RunResult.sendCalls (r : RunResult) : List (String × String) :=
  r.effects.filterMap (fun e =>
    match e with
    | .sendMessage ch txt => some (ch, txt)
    | _ => none)

/-- Delays (ms) of cleanup tasks scheduled during a run. -/
def RunResult.scheduledDelays (r : RunResult) : List ℕ :=
  r.effects.filterMap (fun e =>
    match e with
    | .scheduleDelete d => some d
    | _ => none)

/-- Number of runs of the scheduled warning-cleanup task. -/
def RunResult.cleanupRuns (r : RunResult) : ℕ :=
  (r.effects.filter (fun e =>
    match e with
    | .timerDelete => true
    | _ => false)).length

/-- An error was logged with the given text during the run. -/
def RunResult.errorLogged (r : RunResult) (msg : String) : Prop :=
  Effect.logError msg ∈ r.effects

/-- A warning was logged with the given text during the run. -/
def RunResult.warnLogged (r : RunResult) (msg : String) : Prop :=
  Effect.logWarn msg ∈ r.effects

instance (r : RunResult) (msg : String) : Decidable (r.errorLogged msg) :=
  inferInstanceAs (Decidable (Effect.logError msg ∈ r.effects))

instance (r : RunResult) (msg : String) : Decidable (r.warnLogged msg) :=
  inferInstanceAs (Decidable (Effect.logWarn msg ∈ r.effects))

/-- Four characters shaped `www.` (case-insensitive) at the head of the
input: the prefix every match of alternative 2 must start with. -/
def wwwDotAt : List Char → Bool
  | c1 :: c2 :: c3 :: c4 :: _ =>
    ciIs c1 'w' 'W' && ciIs c2 'w' 'W' && ciIs c3 'w' 'W' && c4 == '.'
  | _ => false

/-- Some position of the input starts with `www.` (case-insensitive). -/
def hasWwwDot : List Char → Bool
  | [] => false
  | c :: rest => wwwDotAt (c :: rest) || hasWwwDot rest

/-! ### Concrete fixtures used by the witnesses -/

/-- A member without any moderator permission. -/
def sampleMember : Member := ⟨some [.SendMessages]⟩

/-- Collaborator outcomes for a late edit with both the database insert and
the deletion failing. -/
def sampleEnvLate : Env := ⟨660000, false, false, true, true, true⟩

/-- Collaborator outcomes for a late edit with deletion and the fallback
send failing. -/
def sampleEnvDelFail : Env := ⟨660000, true, false, true, true, false⟩

/-- Collaborator outcomes for a late edit with everything succeeding. -/
def sampleEnvViolation : Env := ⟨660000, true, true, true, true, true⟩

/-- An original message: plain text, posted at clock 0. -/
def sampleOld : Msg :=
  ⟨"u1", "alice", false, false, some "g1", some sampleMember, "c1", "m1",
   some "Hello", 0⟩

/-- The edited message: a link was added to the text. -/
def sampleNew : Msg := { sampleOld with content := some "Hello https://x.com" }

/-- The edited message when only the bare domain `example.com` was added. -/
def sampleNewBare : Msg := { sampleOld with content := some "Hello example.com" }

/-- The same edit performed by a member holding `ManageMessages`. -/
def sampleModNew : Msg := { sampleNew with member := some ⟨some [.ManageMessages]⟩ }

/-- Collaborators all succeed; the edit arrives 2 minutes after posting. -/
def sampleEnv : Env := ⟨120000, true, true, true, true, true⟩

/-! ### General lemmas about the classifier and the handler -/

/-- The rational comparison against the threshold is the integer comparison
of the elapsed milliseconds against `10 * (1000 * 60)`. -/
theorem withinGracePeriod_iff (now ts : ℤ) :
    withinGracePeriod now ts ↔ now - ts ≤ 10 * (1000 * 60) := by
  unfold withinGracePeriod timeDifferenceMinutes GRACE_PERIOD_MINUTES
  rw [div_le_iff₀ (by norm_num : (0 : ℚ) < 1000 * 60)]
  constructor
  · intro h
    exact_mod_cast h
  · intro h
    exact_mod_cast h

/-- Reduction of the handler on the no-URL-change branch. -/
theorem messageUpdate_noChange_eq (env : Env) (oldMessage newMessage : Msg)
    (g : String) (mem : Member)
    (hb : newMessage.authorBot = false) (hs : newMessage.system = false)
    (hg : newMessage.guildId = some g) (hm : newMessage.member = some mem)
    (hmod : hasModeratorPermissions (some mem) = false)
    (hnc : detectUrlChanges oldMessage.content newMessage.content = .noChange) :
    messageUpdate env oldMessage newMessage =
      ⟨.allowedNoLinkChange,
       [.logInfo "Message edit without URL changes - allowed"]⟩ := by
  simp [messageUpdate, hb, hs, hg, hm, hmod, hnc]

/-- Reduction of the handler on the exempt branch. -/
theorem messageUpdate_exempt_eq (env : Env) (oldMessage newMessage : Msg)
    (g : String) (mem : Member)
    (hb : newMessage.authorBot = false) (hs : newMessage.system = false)
    (hg : newMessage.guildId = some g) (hm : newMessage.member = some mem)
    (hmod : hasModeratorPermissions (some mem) = true) :
    messageUpdate env oldMessage newMessage =
      ⟨.exempt,
       [.logInfo ("Moderator " ++ newMessage.authorUsername ++ " edited message - allowed")]⟩ := by
  simp [messageUpdate, hb, hs, hg, hm, hmod]

/-- Reduction of the handler on the grace branch. -/
theorem messageUpdate_grace_eq (env : Env) (oldMessage newMessage : Msg)
    (g : String) (mem : Member) (t : UrlChangeType)
    (hb : newMessage.authorBot = false) (hs : newMessage.system = false)
    (hg : newMessage.guildId = some g) (hm : newMessage.member = some mem)
    (hmod : hasModeratorPermissions (some mem) = false)
    (hchg : detectUrlChanges oldMessage.content newMessage.content = .changed t)
    (hin : withinGracePeriod env.now oldMessage.createdTimestamp) :
    messageUpdate env oldMessage newMessage =
      ⟨.allowedWithinGrace,
       Effect.logInfo "Link editing detected - checking time restrictions" ::
       Effect.logInfo "Link edit attempt within 10 minute grace period - allowed but logged" ::
       (logLinkViolation g newMessage.authorId newMessage.authorUsername
         newMessage.channelId newMessage.id t oldMessage.content
         newMessage.content "allowed_within_grace_period" env.dbOk).2⟩ := by
  simp [messageUpdate, hb, hs, hg, hm, hmod, hchg, hin]

/-- Reduction of the handler on the violation branch. -/
theorem messageUpdate_violation_eq (env : Env) (oldMessage newMessage : Msg)
    (g : String) (mem : Member) (t : UrlChangeType)
    (hb : newMessage.authorBot = false) (hs : newMessage.system = false)
    (hg : newMessage.guildId = some g) (hm : newMessage.member = some mem)
    (hmod : hasModeratorPermissions (some mem) = false)
    (hchg : detectUrlChanges oldMessage.content newMessage.content = .changed t)
    (hout : ¬ withinGracePeriod env.now oldMessage.createdTimestamp) :
    messageUpdate env oldMessage newMessage =
      ⟨.violation,
       Effect.logInfo "Link editing detected - checking time restrictions" ::
       Effect.logWarn "Link editing rule violation - grace period exceeded" ::
       ((logLinkViolation g newMessage.authorId newMessage.authorUsername
         newMessage.channelId newMessage.id t oldMessage.content
         newMessage.content "message_deleted" env.dbOk).2 ++
        enforcementEffects env newMessage)⟩ := by
  simp [messageUpdate, hb, hs, hg, hm, hmod, hchg, hout]

/-- Content that tests as link-bearing is in particular non-empty. -/
theorem containsUrls_ne_empty {s : String} (h : containsUrls (some s) = true) :
    (s == "") = false := by
  cases hes : s == "" with
  | false => rfl
  | true => simp [containsUrls, hes] at h

/-- The record of every attempted insert is built by `buildViolationRecord`
from the guild, the author, the channel, the message and both contents. -/
theorem persists_are_built_records (env : Env) (oldMessage newMessage : Msg) :
    ∀ row ∈ (messageUpdate env oldMessage newMessage).persists,
      ∃ g t a, row = buildViolationRecord g newMessage.authorId
        newMessage.authorUsername newMessage.channelId newMessage.id t
        oldMessage.content newMessage.content a := by
  intro row hrow
  have henf : ∀ e ∈ enforcementEffects env newMessage,
      (match e with
       | Effect.dbInsert r => some r
       | _ => none) = (none : Option ViolationRecord) := by
    intro e he
    cases hdel : env.deleteOk <;> cases hwarn : env.warnSendOk <;>
      cases hclean : env.cleanupOk <;> cases hfall : env.fallbackOk <;>
      simp [enforcementEffects, hdel, hwarn, hclean, hfall] at he <;>
      rcases he with rfl | rfl | rfl | rfl | rfl | rfl <;> rfl
  unfold messageUpdate at hrow
  split at hrow
  · simp [RunResult.persists] at hrow
  · split at hrow
    · simp [RunResult.persists] at hrow
    · simp [RunResult.persists] at hrow
    · split at hrow
      · simp [RunResult.persists] at hrow
      · split at hrow
        · simp [RunResult.persists] at hrow
        · split at hrow
          · cases hdb : env.dbOk <;>
              simp [RunResult.persists, logLinkViolation, hdb] at hrow <;>
              exact ⟨_, _, _, hrow⟩
          · cases hdb : env.dbOk <;>
              simp [RunResult.persists, logLinkViolation, hdb,
                List.filterMap_append, List.filterMap_eq_nil_iff.mpr henf] at hrow <;>
              exact ⟨_, _, _, hrow⟩

/-- Truncation bound of the JS `substring(0, n)` model. -/
theorem jsSubstring_length_le (s : String) (n : ℕ) : (jsSubstring s n).length ≤ n := by
  have h : (jsSubstring s n).length = (s.data.take n).length := rfl
  rw [h, List.length_take]
  exact min_le_left _ _

/-- C2: for every pair of contents where both contain a link-like substring
and the contents differ in any way, the URL change classification is
`modified`, even when the link substring itself is identical in both. -/
theorem C2_both_links_any_change_modified (o e : String)
    (ho : containsUrls (some o) = true) (he : containsUrls (some e) = true)
    (hne : o ≠ e) :
    detectUrlChanges (some o) (some e) = .changed .modified := by
  have ho' := containsUrls_ne_empty ho
  have he' := containsUrls_ne_empty he
  have hbne : (some o != some e) = true := by
    simp [bne_iff_ne, hne]
  simp [detectUrlChanges, isFalsyStr, ho', he', ho, he, hbne]

/-- Witness for C2: both texts contain the identical link `www.a`, the texts
differ, and the classification is `modified`. -/
theorem C2_witness :
    detectUrlChanges (some "see www.a") (some "see www.a now") = .changed .modified :=
  C2_both_links_any_change_modified "see www.a" "see www.a now"
    (by decide) (by decide) (by decide)

/-- C3: classification is `added` exactly when both contents are present
(non-absent, non-empty) and the original has no link-like substring while the
edited text has one; absent or empty content yields `no_change`; an edit
whose result has no link-like substring (in particular a link removal)
yields `no_change`; classification always returns one of the three values,
never an error; and `modified` holds exactly on its own condition (both
present, both link-bearing, contents unequal) — so by the trichotomy every
case meeting neither the `added` nor the `modified` condition (for example
both link-bearing with equal contents) is `no_change`. -/
theorem C3_added_iff_else_no_change (o e : Option String) :
    (detectUrlChanges o e = .changed .added ↔
      isFalsyStr o = false ∧ isFalsyStr e = false ∧
      containsUrls o = false ∧ containsUrls e = true) ∧
    (isFalsyStr o = true ∨ isFalsyStr e = true → detectUrlChanges o e = .noChange) ∧
    (containsUrls e = false → detectUrlChanges o e = .noChange) ∧
    (detectUrlChanges o e = .noChange ∨ detectUrlChanges o e = .changed .added ∨
      detectUrlChanges o e = .changed .modified) ∧
    (detectUrlChanges o e = .changed .modified ↔
      isFalsyStr o = false ∧ isFalsyStr e = false ∧
      containsUrls o = true ∧ containsUrls e = true ∧ o ≠ e) := by
  refine ⟨?_, ?_, ?_, ?_, ?_⟩ <;>
    by_cases h1 : isFalsyStr o = true <;> by_cases h2 : isFalsyStr e = true <;>
    by_cases h3 : containsUrls o = true <;> by_cases h4 : containsUrls e = true <;>
    by_cases h5 : o = e <;>
    simp_all [detectUrlChanges]

/-- Witness for C3: the original contains a link, the edit removes it, and
the classifier answers `no_change`. -/
theorem C3_witness :
    detectUrlChanges (some "check https://x.com") (some "check it out") = .noChange :=
  (C3_added_iff_else_no_change (some "check https://x.com")
    (some "check it out")).2.2.1 (by decide)

/-- C9: every violation record persisted by the handler carries both content
fields truncated to at most 1000 characters, whatever the input lengths. -/
theorem C9_persisted_contents_truncated (env : Env) (oldMessage newMessage : Msg)
    (row : ViolationRecord)
    (hrow : row ∈ (messageUpdate env oldMessage newMessage).persists) :
    (∀ s, row.old_content = some s → s.length ≤ 1000) ∧
    (∀ s, row.new_content = some s → s.length ≤ 1000) := by
  obtain ⟨g, t, a, rfl⟩ := persists_are_built_records env oldMessage newMessage row hrow
  constructor
  · intro s hs
    simp [buildViolationRecord] at hs
    obtain ⟨s0, _, rfl⟩ := hs
    exact jsSubstring_length_le s0 1000
  · intro s hs
    simp [buildViolationRecord] at hs
    obtain ⟨s0, _, rfl⟩ := hs
    exact jsSubstring_length_le s0 1000

/-- Witness for C9: the record persisted for the sample in-grace edit stores
the original content (shorter than 1000 characters, hence kept whole) with
length at most 1000. -/
theorem C9_witness : ("Hello" : String).length ≤ 1000 :=
  (C9_persisted_contents_truncated sampleEnv sampleOld sampleNew
    (buildViolationRecord "g1" "u1" "alice" "c1" "m1" .added (some "Hello")
      (some "Hello https://x.com") "allowed_within_grace_period")
    (by decide)).1 "Hello" (by decide)

/-- C4: an actor is exempt exactly when they hold at least one permission of
the fixed set; absent members or absent permission data are non-exempt; and
an exempt actor's edit is decided `exempt` with no persistence and no
enforcement, regardless of classification or elapsed time. -/
theorem C4_exempt_iff_mod_permission :
    (∀ perms : List Perm,
      hasModeratorPermissions (some ⟨some perms⟩) = true ↔
        ∃ p ∈ ([.Administrator, .ManageMessages, .ManageChannels, .ManageGuild,
                .BanMembers, .KickMembers, .ModerateMembers] : List Perm),
          p ∈ perms) ∧
    (hasModeratorPermissions none = false ∧
      hasModeratorPermissions (some ⟨none⟩) = false) ∧
    (∀ env oldMessage newMessage g mem,
      newMessage.authorBot = false → newMessage.system = false →
      newMessage.guildId = some g → newMessage.member = some mem →
      hasModeratorPermissions (some mem) = true →
      (messageUpdate env oldMessage newMessage).decision = .exempt ∧
      (messageUpdate env oldMessage newMessage).persists = [] ∧
      (messageUpdate env oldMessage newMessage).deleteAttempts = 0 ∧
      (messageUpdate env oldMessage newMessage).sendCalls = []) := by
  refine ⟨?_, ⟨rfl, rfl⟩, ?_⟩
  · intro perms
    by_cases hadm : perms.contains Perm.Administrator = true <;>
      simp_all [hasModeratorPermissions, modPermissions, List.any_eq_true,
        List.elem_iff]
  · intro env oldMessage newMessage g mem hb hs hg hm hmod
    rw [messageUpdate_exempt_eq env oldMessage newMessage g mem hb hs hg hm hmod]
    simp [RunResult.persists, RunResult.deleteAttempts, RunResult.sendCalls]

/-- Witness for C4: the sample edit by a `ManageMessages` holder is `exempt`,
with nothing persisted, no deletion and no send. -/
theorem C4_witness :
    (messageUpdate sampleEnv sampleOld sampleModNew).decision = .exempt ∧
    (messageUpdate sampleEnv sampleOld sampleModNew).persists = [] ∧
    (messageUpdate sampleEnv sampleOld sampleModNew).deleteAttempts = 0 ∧
    (messageUpdate sampleEnv sampleOld sampleModNew).sendCalls = [] :=
  C4_exempt_iff_mod_permission.2.2 sampleEnv sampleOld sampleModNew "g1"
    ⟨some [.ManageMessages]⟩ (by decide) (by decide) (by decide) (by decide)
    (by decide)

/-- C5: a violation record insert is attempted exactly when the decision is
`allowed_within_grace` or `violation`, and the persisted `action_taken` is
`allowed_within_grace_period` in the grace case and `message_deleted` in the
violation case. -/
theorem C5_persist_exactly_for_grace_or_violation (env : Env)
    (oldMessage newMessage : Msg) :
    ((messageUpdate env oldMessage newMessage).persists ≠ [] ↔
      (messageUpdate env oldMessage newMessage).decision = .allowedWithinGrace ∨
      (messageUpdate env oldMessage newMessage).decision = .violation) ∧
    (∀ row ∈ (messageUpdate env oldMessage newMessage).persists,
      ((messageUpdate env oldMessage newMessage).decision = .allowedWithinGrace →
        row.action_taken = "allowed_within_grace_period") ∧
      ((messageUpdate env oldMessage newMessage).decision = .violation →
        row.action_taken = "message_deleted")) := by
  unfold messageUpdate
  split
  · simp [RunResult.persists]
  · split
    · simp [RunResult.persists]
    · simp [RunResult.persists]
    · split
      · simp [RunResult.persists]
      · split
        · simp [RunResult.persists]
        · split
          · cases hdb : env.dbOk <;>
              simp [RunResult.persists, logLinkViolation, hdb, buildViolationRecord]
          · cases hdb : env.dbOk <;>
              cases hdel : env.deleteOk <;> cases hw : env.warnSendOk <;>
              cases hc : env.cleanupOk <;> cases hf : env.fallbackOk <;>
              simp [RunResult.persists, logLinkViolation, hdb, buildViolationRecord,
                enforcementEffects, hdel, hw, hc, hf]

/-- Witness for C5: the sample in-grace edit attempts a persist, so its
decision is one of the two persisting decisions. -/
theorem C5_witness :
    (messageUpdate sampleEnv sampleOld sampleNew).decision = .allowedWithinGrace ∨
    (messageUpdate sampleEnv sampleOld sampleNew).decision = .violation :=
  (C5_persist_exactly_for_grace_or_violation sampleEnv sampleOld sampleNew).1.mp
    (by decide)

/-- C1: for a non-exempt actor and a classification `added` or `modified`,
the handler compares `timeDifferenceMinutes` — the elapsed time since the
ORIGINAL message's creation timestamp divided by `1000 * 60 = 60000` — with
the fixed 10-minute threshold: the decision is `allowed_within_grace`
exactly when the elapsed minutes are at most 10 (boundary included) and
`violation` exactly when they exceed 10, and the decision is monotonic in
the current time, switching from allowed to violation exactly at the
threshold and never earlier. -/
theorem C1_grace_threshold (env : Env) (oldMessage newMessage : Msg)
    (g : String) (mem : Member) (t : UrlChangeType)
    (hb : newMessage.authorBot = false) (hs : newMessage.system = false)
    (hg : newMessage.guildId = some g) (hm : newMessage.member = some mem)
    (hmod : hasModeratorPermissions (some mem) = false)
    (hchg : detectUrlChanges oldMessage.content newMessage.content = .changed t) :
    ((messageUpdate env oldMessage newMessage).decision = .allowedWithinGrace ↔
      timeDifferenceMinutes env.now oldMessage.createdTimestamp ≤ GRACE_PERIOD_MINUTES) ∧
    ((messageUpdate env oldMessage newMessage).decision = .violation ↔
      GRACE_PERIOD_MINUTES < timeDifferenceMinutes env.now oldMessage.createdTimestamp) ∧
    (timeDifferenceMinutes env.now oldMessage.createdTimestamp = GRACE_PERIOD_MINUTES →
      (messageUpdate env oldMessage newMessage).decision = .allowedWithinGrace) ∧
    (∀ n1 n2 : ℤ, n1 ≤ n2 →
      (messageUpdate { env with now := n1 } oldMessage newMessage).decision = .violation →
      (messageUpdate { env with now := n2 } oldMessage newMessage).decision = .violation) ∧
    (∀ n1 n2 : ℤ, n1 ≤ n2 →
      (messageUpdate { env with now := n2 } oldMessage newMessage).decision = .allowedWithinGrace →
      (messageUpdate { env with now := n1 } oldMessage newMessage).decision = .allowedWithinGrace) := by
  have key : ∀ m : ℤ,
      (messageUpdate { env with now := m } oldMessage newMessage).decision =
        if withinGracePeriod m oldMessage.createdTimestamp then
          Decision.allowedWithinGrace
        else Decision.violation := by
    intro m
    by_cases hgr : withinGracePeriod m oldMessage.createdTimestamp
    · rw [messageUpdate_grace_eq { env with now := m } oldMessage newMessage
        g mem t hb hs hg hm hmod hchg hgr]
      simp [hgr]
    · rw [messageUpdate_violation_eq { env with now := m } oldMessage newMessage
        g mem t hb hs hg hm hmod hchg hgr]
      simp [hgr]
  have keyEnv : (messageUpdate env oldMessage newMessage).decision =
      if withinGracePeriod env.now oldMessage.createdTimestamp then
        Decision.allowedWithinGrace
      else Decision.violation := key env.now
  have hmono : ∀ n1 n2 : ℤ, n1 ≤ n2 →
      ¬ withinGracePeriod n1 oldMessage.createdTimestamp →
      ¬ withinGracePeriod n2 oldMessage.createdTimestamp := by
    intro n1 n2 h12 h1
    rw [withinGracePeriod_iff] at h1 ⊢
    omega
  refine ⟨?_, ?_, ?_, ?_, ?_⟩
  · rw [keyEnv]
    by_cases hgr : withinGracePeriod env.now oldMessage.createdTimestamp
    · rw [if_pos hgr]
      exact iff_of_true rfl hgr
    · rw [if_neg hgr]
      exact iff_of_false (by simp) hgr
  · rw [keyEnv]
    by_cases hgr : withinGracePeriod env.now oldMessage.createdTimestamp
    · rw [if_pos hgr]
      exact iff_of_false (by simp) (not_lt.mpr hgr)
    · rw [if_neg hgr]
      exact iff_of_true rfl (lt_of_not_le hgr)
  · intro hEq
    have hgr : withinGracePeriod env.now oldMessage.createdTimestamp := le_of_eq hEq
    rw [keyEnv, if_pos hgr]
  · intro n1 n2 h12 hv
    rw [key n1] at hv
    rw [key n2]
    by_cases h1 : withinGracePeriod n1 oldMessage.createdTimestamp
    · rw [if_pos h1] at hv
      exact absurd hv (by simp)
    · rw [if_neg (hmono n1 n2 h12 h1)]
  · intro n1 n2 h12 hv
    rw [key n2] at hv
    rw [key n1]
    by_cases h2 : withinGracePeriod n2 oldMessage.createdTimestamp
    · by_cases h1 : withinGracePeriod n1 oldMessage.createdTimestamp
      · rw [if_pos h1]
      · exact absurd h2 (hmono n1 n2 h12 h1)
    · rw [if_neg h2] at hv
      exact absurd hv (by simp)

/-- Witness for C1: the sample edit is a violation 600001 ms after posting,
hence by monotonicity still a violation at 660000 ms. -/
theorem C1_witness :
    (messageUpdate { sampleEnv with now := 660000 } sampleOld sampleNew).decision =
      .violation :=
  (C1_grace_threshold sampleEnv sampleOld sampleNew "g1" sampleMember .added
    (by decide) (by decide) (by decide) (by decide) (by decide)
    (by decide)).2.2.2.1 600001 660000 (by decide) (by decide)

/-- C6: in the violation branch the insert of the violation record is
attempted for every collaborator outcome — in particular independently of
whether the deletion succeeds — and exactly one deletion is attempted
independently of whether the insert succeeds; a failed insert and a failed
deletion are each caught and logged (the handler still returns a result,
never an error). -/
theorem C6_persist_and_enforcement_decoupled (env : Env)
    (oldMessage newMessage : Msg) (g : String) (mem : Member) (t : UrlChangeType)
    (hb : newMessage.authorBot = false) (hs : newMessage.system = false)
    (hg : newMessage.guildId = some g) (hm : newMessage.member = some mem)
    (hmod : hasModeratorPermissions (some mem) = false)
    (hchg : detectUrlChanges oldMessage.content newMessage.content = .changed t)
    (hout : ¬ withinGracePeriod env.now oldMessage.createdTimestamp) :
    (messageUpdate env oldMessage newMessage).decision = .violation ∧
    (messageUpdate env oldMessage newMessage).persists =
      [buildViolationRecord g newMessage.authorId newMessage.authorUsername
        newMessage.channelId newMessage.id t oldMessage.content
        newMessage.content "message_deleted"] ∧
    (messageUpdate env oldMessage newMessage).deleteAttempts = 1 ∧
    (env.dbOk = false →
      (messageUpdate env oldMessage newMessage).errorLogged
        "Failed to log link violation") ∧
    (env.deleteOk = false →
      (messageUpdate env oldMessage newMessage).errorLogged
        "Failed to delete message with link edit violation") := by
  rw [messageUpdate_violation_eq env oldMessage newMessage g mem t
    hb hs hg hm hmod hchg hout]
  cases hdb : env.dbOk <;> cases hdel : env.deleteOk <;>
    cases hw : env.warnSendOk <;> cases hc : env.cleanupOk <;>
    cases hf : env.fallbackOk <;>
    simp [RunResult.persists, RunResult.deleteAttempts, RunResult.errorLogged,
      logLinkViolation, hdb, enforcementEffects, hdel, hw, hc, hf]

/-- Witness for C6: for the late sample edit with both the insert and the
deletion failing, the record insert and the deletion are both attempted. -/
theorem C6_witness :
    (messageUpdate sampleEnvLate sampleOld sampleNew).persists =
      [buildViolationRecord "g1" "u1" "alice" "c1" "m1" .added (some "Hello")
        (some "Hello https://x.com") "message_deleted"] ∧
    (messageUpdate sampleEnvLate sampleOld sampleNew).deleteAttempts = 1 :=
  ⟨(C6_persist_and_enforcement_decoupled sampleEnvLate sampleOld sampleNew "g1"
      sampleMember .added (by decide) (by decide) (by decide) (by decide)
      (by decide) (by decide) (by decide)).2.1,
   (C6_persist_and_enforcement_decoupled sampleEnvLate sampleOld sampleNew "g1"
      sampleMember .added (by decide) (by decide) (by decide) (by decide)
      (by decide) (by decide) (by decide)).2.2.1⟩

/-- C7: in the violation branch, when deletion fails the fallback warning is
still attempted (and is the only send, with no scheduled auto-removal); a
failing fallback is only logged; the handler returns a result in every
case, so no error escapes it. -/
theorem C7_fallback_on_delete_failure (env : Env)
    (oldMessage newMessage : Msg) (g : String) (mem : Member) (t : UrlChangeType)
    (hb : newMessage.authorBot = false) (hs : newMessage.system = false)
    (hg : newMessage.guildId = some g) (hm : newMessage.member = some mem)
    (hmod : hasModeratorPermissions (some mem) = false)
    (hchg : detectUrlChanges oldMessage.content newMessage.content = .changed t)
    (hout : ¬ withinGracePeriod env.now oldMessage.createdTimestamp)
    (hdel : env.deleteOk = false) :
    (messageUpdate env oldMessage newMessage).sendCalls =
      [(newMessage.channelId, fallbackWarningText newMessage)] ∧
    (messageUpdate env oldMessage newMessage).scheduledDelays = [] ∧
    (messageUpdate env oldMessage newMessage).cleanupRuns = 0 ∧
    (env.fallbackOk = true →
      Effect.logInfo "Fallback warning message sent" ∈
        (messageUpdate env oldMessage newMessage).effects) ∧
    (env.fallbackOk = false →
      (messageUpdate env oldMessage newMessage).errorLogged
        "Failed to send warning message") := by
  rw [messageUpdate_violation_eq env oldMessage newMessage g mem t
    hb hs hg hm hmod hchg hout]
  cases hdb : env.dbOk <;> cases hf : env.fallbackOk <;>
    simp [RunResult.sendCalls, RunResult.scheduledDelays, RunResult.cleanupRuns,
      RunResult.errorLogged, logLinkViolation, hdb, enforcementEffects, hdel, hf]

/-- Witness for C7: the late sample edit with failing deletion and failing
fallback still attempts the fallback send and logs the send failure. -/
theorem C7_witness :
    (messageUpdate sampleEnvDelFail sampleOld sampleNew).sendCalls =
      [("c1", fallbackWarningText sampleNew)] ∧
    (messageUpdate sampleEnvDelFail sampleOld sampleNew).errorLogged
      "Failed to send warning message" :=
  ⟨(C7_fallback_on_delete_failure sampleEnvDelFail sampleOld sampleNew "g1"
      sampleMember .added (by decide) (by decide) (by decide) (by decide)
      (by decide) (by decide) (by decide) (by decide)).1,
   (C7_fallback_on_delete_failure sampleEnvDelFail sampleOld sampleNew "g1"
      sampleMember .added (by decide) (by decide) (by decide) (by decide)
      (by decide) (by decide) (by decide) (by decide)).2.2.2.2 rfl⟩

/-- C8: in the violation branch, when the deletion succeeds (and the warning
send succeeds) the warning notice mentioning the actor is the one send, in
the same channel, and its removal is scheduled after the fixed 20000 ms
delay (within the claimed 10–20 second default range); the scheduled
removal runs exactly once whatever its outcome — a failure is only logged
as a warning, never retried, and nothing else happens to the original
message. -/
theorem C8_warning_and_scheduled_cleanup (env : Env)
    (oldMessage newMessage : Msg) (g : String) (mem : Member) (t : UrlChangeType)
    (hb : newMessage.authorBot = false) (hs : newMessage.system = false)
    (hg : newMessage.guildId = some g) (hm : newMessage.member = some mem)
    (hmod : hasModeratorPermissions (some mem) = false)
    (hchg : detectUrlChanges oldMessage.content newMessage.content = .changed t)
    (hout : ¬ withinGracePeriod env.now oldMessage.createdTimestamp)
    (hdel : env.deleteOk = true) (hw : env.warnSendOk = true) :
    (messageUpdate env oldMessage newMessage).sendCalls =
      [(newMessage.channelId, warningMessageText newMessage)] ∧
    (∃ pre post, warningMessageText newMessage =
      pre ++ authorMention newMessage ++ post) ∧
    (messageUpdate env oldMessage newMessage).scheduledDelays = [20000] ∧
    (∀ d ∈ (messageUpdate env oldMessage newMessage).scheduledDelays,
      10000 ≤ d ∧ d ≤ 20000) ∧
    (messageUpdate env oldMessage newMessage).cleanupRuns = 1 ∧
    (env.cleanupOk = false →
      (messageUpdate env oldMessage newMessage).warnLogged
        "Could not delete warning message" ∧
      (messageUpdate env oldMessage newMessage).deleteAttempts = 1) := by
  rw [messageUpdate_violation_eq env oldMessage newMessage g mem t
    hb hs hg hm hmod hchg hout]
  refine ⟨?_,
    ⟨"🚫 🔗 ✏️ 5️⃣ ⏰ ‼️\n👋 ",
     ", NO LINK EDITING AFTER 5 MINUTES!\n🛡️ For server safety, your message has been deleted.\n🎇 This notice will self-destruct in 20 seconds...",
     rfl⟩, ?_, ?_, ?_, ?_⟩ <;>
    cases hdb : env.dbOk <;> cases hc : env.cleanupOk <;>
    simp [RunResult.sendCalls, RunResult.scheduledDelays, RunResult.cleanupRuns,
      RunResult.warnLogged, RunResult.deleteAttempts, logLinkViolation, hdb,
      enforcementEffects, hdel, hw, hc]

/-- Witness for C8: for the late sample edit with all collaborators
succeeding, the cleanup of the warning is scheduled at 20000 ms and runs
exactly once. -/
theorem C8_witness :
    (messageUpdate sampleEnvViolation sampleOld sampleNew).scheduledDelays =
      [20000] ∧
    (messageUpdate sampleEnvViolation sampleOld sampleNew).cleanupRuns = 1 :=
  ⟨(C8_warning_and_scheduled_cleanup sampleEnvViolation sampleOld sampleNew "g1"
      sampleMember .added (by decide) (by decide) (by decide) (by decide)
      (by decide) (by decide) (by decide) (by decide) (by decide)).2.2.1,
   (C8_warning_and_scheduled_cleanup sampleEnvViolation sampleOld sampleNew "g1"
      sampleMember .added (by decide) (by decide) (by decide) (by decide)
      (by decide) (by decide) (by decide) (by decide) (by decide)).2.2.2.2.1⟩


/-- Distinct space classification separates characters. -/
theorem space_beq_false (sp d : Char) (hsp : isJsSpace sp = true)
    (hd : isJsSpace d = false) : (sp == d) = false := by
  apply beq_eq_false_iff_ne.mpr
  intro hEq
  rw [hEq, hd] at hsp
  exact Bool.false_ne_true hsp

/-- A space character is not an ASCII letter. -/
theorem isRegexLetter_space (sp : Char) (hsp : isJsSpace sp = true) :
    isRegexLetter sp = false := by
  have hn := hsp
  simp only [isJsSpace, Bool.or_eq_true, Bool.and_eq_true, beq_iff_eq,
    decide_eq_true_eq] at hn
  simp only [isRegexLetter, Bool.or_eq_false_iff, Bool.and_eq_false_iff,
    decide_eq_false_iff_not, not_le]
  omega

/-- `ciIs` against a letter pair fails on a space character. -/
theorem ciIs_space (sp l u : Char) (hsp : isJsSpace sp = true)
    (hl : isJsSpace l = false) (hu : isJsSpace u = false) :
    ciIs sp l u = false := by
  simp [ciIs, space_beq_false sp l hsp hl, space_beq_false sp u hsp hu]

theorem nonspace1_stop (sp : Char) (hsp : isJsSpace sp = true) (u v : List Char) :
    nonspace1 (u ++ sp :: v) = nonspace1 u := by
  cases u <;> simp [nonspace1, hsp]

theorem restColon_stop (sp : Char) (hsp : isJsSpace sp = true) (u v : List Char) :
    restColon (u ++ sp :: v) = restColon u := by
  have hcolon := space_beq_false sp ':' hsp (by decide)
  have hslash := space_beq_false sp '/' hsp (by decide)
  rcases u with _ | ⟨a, _ | ⟨b, _ | ⟨c, u⟩⟩⟩
  · rcases v with _ | ⟨x, _ | ⟨y, v⟩⟩ <;> simp [restColon, hcolon, hslash]
  · rcases v with _ | ⟨x, _ | ⟨y, v⟩⟩ <;> simp [restColon, nonspace1, hsp, hcolon, hslash]
  · rcases v with _ | ⟨x, _ | ⟨y, v⟩⟩ <;> simp [restColon, nonspace1, hsp, hcolon, hslash]
  · simp [restColon, nonspace1_stop sp hsp]

theorem restHttp_stop (sp : Char) (hsp : isJsSpace sp = true) (u v : List Char) :
    restHttp (u ++ sp :: v) = restHttp u := by
  have hcis : ciIs sp 's' 'S' = false := ciIs_space sp 's' 'S' hsp (by decide) (by decide)
  have hcolon := space_beq_false sp ':' hsp (by decide)
  cases u with
  | nil =>
    rcases v with _ | ⟨x, _ | ⟨y, v⟩⟩ <;> simp [restHttp, restColon, hcis, hcolon]
  | cons a u =>
    have h1 := restColon_stop sp hsp u v
    have h2 := restColon_stop sp hsp (a :: u) v
    simp only [List.cons_append] at h2
    simp [restHttp, h1, h2]

theorem alt1_stop (sp : Char) (hsp : isJsSpace sp = true) (u v : List Char) :
    alt1 (u ++ sp :: v) = alt1 u := by
  have hh : ciIs sp 'h' 'H' = false := ciIs_space sp 'h' 'H' hsp (by decide) (by decide)
  have ht : ciIs sp 't' 'T' = false := ciIs_space sp 't' 'T' hsp (by decide) (by decide)
  have hp : ciIs sp 'p' 'P' = false := ciIs_space sp 'p' 'P' hsp (by decide) (by decide)
  rcases u with _ | ⟨a, _ | ⟨b, _ | ⟨c, _ | ⟨d, u⟩⟩⟩⟩
  · rcases v with _ | ⟨x, _ | ⟨y, _ | ⟨z, v⟩⟩⟩ <;> simp [alt1, hh, ht, hp]
  · rcases v with _ | ⟨x, _ | ⟨y, _ | ⟨z, v⟩⟩⟩ <;> simp [alt1, hh, ht, hp]
  · rcases v with _ | ⟨x, _ | ⟨y, _ | ⟨z, v⟩⟩⟩ <;> simp [alt1, hh, ht, hp]
  · rcases v with _ | ⟨x, _ | ⟨y, _ | ⟨z, v⟩⟩⟩ <;> simp [alt1, hh, ht, hp]
  · simp [alt1, restHttp_stop sp hsp]

theorem alt2_stop (sp : Char) (hsp : isJsSpace sp = true) (u v : List Char) :
    alt2 (u ++ sp :: v) = alt2 u := by
  have hw : ciIs sp 'w' 'W' = false := ciIs_space sp 'w' 'W' hsp (by decide) (by decide)
  have hdot := space_beq_false sp '.' hsp (by decide)
  rcases u with _ | ⟨a, _ | ⟨b, _ | ⟨c, _ | ⟨d, u⟩⟩⟩⟩
  · rcases v with _ | ⟨x, _ | ⟨y, _ | ⟨z, v⟩⟩⟩ <;> simp [alt2, hw, hdot]
  · rcases v with _ | ⟨x, _ | ⟨y, _ | ⟨z, v⟩⟩⟩ <;> simp [alt2, hw, hdot]
  · rcases v with _ | ⟨x, _ | ⟨y, _ | ⟨z, v⟩⟩⟩ <;> simp [alt2, hw, hdot]
  · rcases v with _ | ⟨x, _ | ⟨y, _ | ⟨z, v⟩⟩⟩ <;> simp [alt2, hw, hdot, nonspace1, hsp]
  · simp [alt2, nonspace1_stop sp hsp]

theorem slashAfterLetters_stop (sp : Char) (hsp : isJsSpace sp = true)
    (u v : List Char) : slashAfterLetters (u ++ sp :: v) = slashAfterLetters u := by
  have hslash := space_beq_false sp '/' hsp (by decide)
  have hlet := isRegexLetter_space sp hsp
  induction u with
  | nil => simp [slashAfterLetters, hslash, hlet]
  | cons a u ih => simp [slashAfterLetters, ih]

theorem twoLettersSlash_stop (sp : Char) (hsp : isJsSpace sp = true)
    (u v : List Char) : twoLettersSlash (u ++ sp :: v) = twoLettersSlash u := by
  have hlet := isRegexLetter_space sp hsp
  rcases u with _ | ⟨a, _ | ⟨b, u⟩⟩
  · rcases v with _ | ⟨x, v⟩ <;> simp [twoLettersSlash, hlet]
  · rcases v with _ | ⟨x, v⟩ <;> simp [twoLettersSlash, hlet]
  · simp [twoLettersSlash, slashAfterLetters_stop sp hsp]

theorem afterA_stop (sp : Char) (hsp : isJsSpace sp = true) (u v : List Char) :
    afterA (u ++ sp :: v) = afterA u := by
  have hdot := space_beq_false sp '.' hsp (by decide)
  induction u with
  | nil => simp [afterA, hdot, hsp]
  | cons a u ih => simp [afterA, twoLettersSlash_stop sp hsp, ih]

theorem alt3_stop (sp : Char) (hsp : isJsSpace sp = true) (u v : List Char) :
    alt3 (u ++ sp :: v) = alt3 u := by
  cases u with
  | nil => simp [alt3, hsp]
  | cons a u => simp [alt3, afterA_stop sp hsp]

theorem testFrom_split (sp : Char) (hsp : isJsSpace sp = true) (u v : List Char) :
    testFrom (u ++ sp :: v) = (testFrom u || testFrom v) := by
  induction u with
  | nil =>
    have h1 := alt1_stop sp hsp [] v
    have h2 := alt2_stop sp hsp [] v
    have h3 := alt3_stop sp hsp [] v
    simp only [List.nil_append] at h1 h2 h3
    simp only [testFrom, h1, h2, h3]
    simp [alt1, alt2, alt3, testFrom]
  | cons a u ih =>
    have h1 := alt1_stop sp hsp (a :: u) v
    have h2 := alt2_stop sp hsp (a :: u) v
    have h3 := alt3_stop sp hsp (a :: u) v
    simp only [List.cons_append] at h1 h2 h3
    simp [testFrom, h1, h2, h3, ih, Bool.or_assoc]

theorem slashAfterLetters_slash {l : List Char} (h : slashAfterLetters l = true) :
    '/' ∈ l := by
  induction l with
  | nil => simp [slashAfterLetters] at h
  | cons c rest ih =>
    simp only [slashAfterLetters, Bool.or_eq_true, Bool.and_eq_true, beq_iff_eq] at h
    rcases h with h | ⟨-, h⟩
    · simp [h]
    · exact List.mem_cons_of_mem c (ih h)

theorem twoLettersSlash_slash {l : List Char} (h : twoLettersSlash l = true) :
    '/' ∈ l := by
  rcases l with _ | ⟨a, _ | ⟨b, rest⟩⟩
  · simp [twoLettersSlash] at h
  · simp [twoLettersSlash] at h
  · simp only [twoLettersSlash, Bool.and_eq_true] at h
    exact List.mem_cons_of_mem a
      (List.mem_cons_of_mem b (slashAfterLetters_slash h.2))

theorem afterA_slash {l : List Char} (h : afterA l = true) : '/' ∈ l := by
  induction l with
  | nil => simp [afterA] at h
  | cons c rest ih =>
    simp only [afterA, Bool.or_eq_true, Bool.and_eq_true] at h
    rcases h with ⟨-, h⟩ | ⟨-, h⟩
    · exact List.mem_cons_of_mem c (twoLettersSlash_slash h)
    · exact List.mem_cons_of_mem c (ih h)

theorem alt3_slash {l : List Char} (h : alt3 l = true) : '/' ∈ l := by
  rcases l with _ | ⟨c, rest⟩
  · simp [alt3] at h
  · simp only [alt3, Bool.and_eq_true] at h
    exact List.mem_cons_of_mem c (afterA_slash h.2)

theorem restColon_slash {l : List Char} (h : restColon l = true) : '/' ∈ l := by
  rcases l with _ | ⟨a, _ | ⟨b, _ | ⟨c, rest⟩⟩⟩
  · simp [restColon] at h
  · simp [restColon] at h
  · simp [restColon] at h
  · simp only [restColon, Bool.and_eq_true, beq_iff_eq] at h
    obtain ⟨⟨⟨-, hb⟩, -⟩, -⟩ := h
    subst hb
    exact List.mem_cons_of_mem a (List.mem_cons_self _ _)

theorem restHttp_slash {l : List Char} (h : restHttp l = true) : '/' ∈ l := by
  simp only [restHttp, Bool.or_eq_true] at h
  rcases h with h | h
  · rcases l with _ | ⟨c, rest⟩
    · simp at h
    · simp only [Bool.and_eq_true] at h
      exact List.mem_cons_of_mem c (restColon_slash h.2)
  · exact restColon_slash h

theorem alt1_slash {l : List Char} (h : alt1 l = true) : '/' ∈ l := by
  rcases l with _ | ⟨a, _ | ⟨b, _ | ⟨c, _ | ⟨d, rest⟩⟩⟩⟩
  · simp [alt1] at h
  · simp [alt1] at h
  · simp [alt1] at h
  · simp [alt1] at h
  · simp only [alt1, Bool.and_eq_true] at h
    obtain ⟨-, hrest⟩ := h
    exact List.mem_cons_of_mem a (List.mem_cons_of_mem b
      (List.mem_cons_of_mem c (List.mem_cons_of_mem d (restHttp_slash hrest))))

theorem alt2_www {l : List Char} (h : alt2 l = true) : wwwDotAt l = true := by
  rcases l with _ | ⟨a, _ | ⟨b, _ | ⟨c, _ | ⟨d, rest⟩⟩⟩⟩
  · simp [alt2] at h
  · simp [alt2] at h
  · simp [alt2] at h
  · simp [alt2] at h
  · simp only [alt2, Bool.and_eq_true] at h
    obtain ⟨⟨⟨⟨h1, h2⟩, h3⟩, h4⟩, -⟩ := h
    simp [wwwDotAt, h1, h2, h3, h4]

theorem testFrom_no_link {l : List Char} (hs : '/' ∉ l) (hw : hasWwwDot l = false) :
    testFrom l = false := by
  induction l with
  | nil => rfl
  | cons c rest ih =>
    have hs' : '/' ∉ rest := fun hmem => hs (List.mem_cons_of_mem c hmem)
    simp only [hasWwwDot, Bool.or_eq_false_iff] at hw
    have h1 : alt1 (c :: rest) = false := by
      by_cases hh : alt1 (c :: rest) = true
      · exact absurd (alt1_slash hh) hs
      · simpa using hh
    have h2 : alt2 (c :: rest) = false := by
      by_cases hh : alt2 (c :: rest) = true
      · have hcontra := alt2_www hh
        rw [hw.1] at hcontra
        exact absurd hcontra (by simp)
      · simpa using hh
    have h3 : alt3 (c :: rest) = false := by
      by_cases hh : alt3 (c :: rest) = true
      · exact absurd (alt3_slash hh) hs
      · simpa using hh
    simp [testFrom, h1, h2, h3, ih hs' hw.2]

theorem containsUrls_append_bare (o d : String)
    (ho : containsUrls (some o) = false)
    (hslash : '/' ∉ d.data) (hwww : hasWwwDot d.data = false) :
    containsUrls (some (o ++ " " ++ d)) = false := by
  have hdata : (o ++ " " ++ d).data = o.data ++ ' ' :: d.data := by
    have h0 : (o ++ " " ++ d).data = (o.data ++ [' ']) ++ d.data := rfl
    rw [h0, List.append_assoc]
    rfl
  have hod : testFrom o.data = false := by
    by_cases he : o = ""
    · subst he
      rfl
    · have hne : (o == "") = false := by simp [he]
      simpa [containsUrls, hne] using ho
  have hd : testFrom d.data = false := testFrom_no_link hslash hwww
  have hne : ((o ++ " " ++ d) == "") = false := by
    apply beq_eq_false_iff_ne.mpr
    intro hEq
    have hcontra := congrArg String.data hEq
    rw [hdata] at hcontra
    simp at hcontra
  simp only [containsUrls, hne, Bool.false_eq_true, if_false]
  rw [hdata, testFrom_split ' ' (by decide) o.data d.data, hod, hd]
  rfl

/-- C10: the heuristic recognizes only the three regex shapes, and the third
requires a slash after the top-level domain, so a bare domain such as
`example.com` is not link-like; consequently an edit that only appends such
a bare domain (no scheme, no `www.` anywhere) to a link-free message is
classified `no_change` and allowed with no persistence and no enforcement. -/
theorem C10_bare_domain_allowed :
    (containsUrls (some "example.com") = false ∧
     containsUrls (some "example.com/") = true ∧
     containsUrls (some "http://example.com") = true ∧
     containsUrls (some "www.example.com") = true) ∧
    (∀ s : String, '/' ∉ s.data → hasWwwDot s.data = false →
      containsUrls (some s) = false) ∧
    (∀ o e : Option String, containsUrls e = false →
      detectUrlChanges o e = .noChange) ∧
    (∀ (env : Env) (oldMessage newMessage : Msg) (g : String) (mem : Member)
      (o d : String),
      newMessage.authorBot = false → newMessage.system = false →
      newMessage.guildId = some g → newMessage.member = some mem →
      hasModeratorPermissions (some mem) = false →
      oldMessage.content = some o →
      newMessage.content = some (o ++ " " ++ d) →
      containsUrls (some o) = false →
      '/' ∉ d.data → hasWwwDot d.data = false →
      detectUrlChanges oldMessage.content newMessage.content = .noChange ∧
      (messageUpdate env oldMessage newMessage).decision = .allowedNoLinkChange ∧
      (messageUpdate env oldMessage newMessage).persists = [] ∧
      (messageUpdate env oldMessage newMessage).deleteAttempts = 0 ∧
      (messageUpdate env oldMessage newMessage).sendCalls = []) := by
  have hgen : ∀ s : String, '/' ∉ s.data → hasWwwDot s.data = false →
      containsUrls (some s) = false := by
    intro s h1 h2
    by_cases he : s = ""
    · subst he
      rfl
    · have hne : (s == "") = false := by simp [he]
      simp [containsUrls, hne, testFrom_no_link h1 h2]
  have hnochange : ∀ o e : Option String, containsUrls e = false →
      detectUrlChanges o e = .noChange := by
    intro o e hce
    unfold detectUrlChanges
    split
    · rfl
    · simp [hce]
  refine ⟨⟨by decide, by decide, by decide, by decide⟩, hgen, hnochange, ?_⟩
  intro env oldMessage newMessage g mem o d hb hs hg hm hmod hco hcn hof hslash hwww
  have hce : containsUrls (some (o ++ " " ++ d)) = false :=
    containsUrls_append_bare o d hof hslash hwww
  have hdet : detectUrlChanges oldMessage.content newMessage.content = .noChange := by
    rw [hcn]
    exact hnochange oldMessage.content _ hce
  refine ⟨hdet, ?_, ?_, ?_, ?_⟩ <;>
    rw [messageUpdate_noChange_eq env oldMessage newMessage g mem hb hs hg hm hmod hdet] <;>
    simp [RunResult.persists, RunResult.deleteAttempts, RunResult.sendCalls]

/-- Witness for C10: appending the bare domain `example.com` to the sample
message is classified `no_change`, allowed, with nothing persisted. -/
theorem C10_witness :
    detectUrlChanges sampleOld.content sampleNewBare.content = .noChange ∧
    (messageUpdate sampleEnv sampleOld sampleNewBare).decision = .allowedNoLinkChange ∧
    (messageUpdate sampleEnv sampleOld sampleNewBare).persists = [] :=
  let h := C10_bare_domain_allowed.2.2.2 sampleEnv sampleOld sampleNewBare "g1"
    sampleMember "Hello" "example.com" (by decide) (by decide) (by decide)
    (by decide) (by decide) (by decide) (by decide) (by decide) (by decide)
    (by decide)
  ⟨h.1, h.2.1, h.2.2.1⟩
